import Mathlib

/-!
Shallow embedding of the FMN swimming-results scraper
(`src/ingestion/fmn_scraper.py`) and proofs about its crawl/registry
state machine, its filename and date handling, and its download logic.

Machine integers do not occur in the source (Python arbitrary-precision
ints), so years, counters and page numbers are modelled as `Nat`.
Network and filesystem effects are modelled as explicit environment
values (per-page results, fetch outcomes, file contents).
-/

/-- Result of `_get_competitions_from_page` for one page, as consumed by
the pagination loop in `FMNScraper.run`: how many new competitions the
page yielded and how many already-processed entries were skipped
(each skipped entry increments `stats['competitions_already_downloaded']`). -/
structure PageResult where
  newComps : Nat
  skipped : Nat
deriving DecidableEq

/-- Observable events of `FMNScraper.run`: visiting (requesting) a calendar
page, and flushing the registry to storage (`_save_registry`). -/
inductive CrawlEvent where
  | visit : Nat → CrawlEvent
  | flush : CrawlEvent
deriving DecidableEq

/-- The pagination loop of `FMNScraper.run` (lines 425-458).  `page` is the
next page index, `ce` the `consecutive_empty` counter, `sk` the cumulative
`stats['competitions_already_downloaded']` counter (updated inside
`_get_competitions_from_page`, hence `sk + (pf page).skipped` at the check),
and `remaining = max_pages + 1 - page` counts the iterations still allowed
by `while page <= self.max_pages`.  A page with new competitions is followed
by a registry flush; the loop breaks once three consecutive pages were empty
with a zero cumulative skip counter. -/
def crawlGo (pf : Nat → PageResult) (page ce sk remaining : Nat) : List CrawlEvent :=
  match remaining with
  | 0 => []
  | r + 1 =>
    if (pf page).newComps = 0 then
      if 0 < sk + (pf page).skipped then
        CrawlEvent.visit page :: crawlGo pf (page + 1) 0 (sk + (pf page).skipped) r
      else if 3 ≤ ce + 1 then
        [CrawlEvent.visit page]
      else
        CrawlEvent.visit page :: crawlGo pf (page + 1) (ce + 1) (sk + (pf page).skipped) r
    else
      CrawlEvent.visit page :: CrawlEvent.flush :: crawlGo pf (page + 1) 0 (sk + (pf page).skipped) r

/-- A whole run of `FMNScraper.run`: the pagination loop starting at page 1
with both counters zero, followed by the final `_save_registry()` call
(line 461). -/
def runEvents (pf : Nat → PageResult) (maxPages : Nat) : List CrawlEvent :=
  crawlGo pf 1 0 0 maxPages ++ [CrawlEvent.flush]

/-- Page indices requested during a run. -/
def visitedPages (l : List CrawlEvent) : List Nat :=
  l.filterMap fun e =>
    match e with
    | CrawlEvent.visit p => some p
    | CrawlEvent.flush => none

/-- Number of registry flushes in an event trace. -/
def flushes (l : List CrawlEvent) : Nat :=
  l.countP fun e =>
    match e with
    | CrawlEvent.visit _ => false
    | CrawlEvent.flush => true

/-- Number of listed pages that yielded at least one new competition. -/
def newPages (pf : Nat → PageResult) (l : List Nat) : Nat :=
  l.countP fun p => (pf p).newComps != 0

theorem crawlGo_succ (pf : Nat → PageResult) (page ce sk r : Nat) :
    crawlGo pf page ce sk (r + 1) =
      if (pf page).newComps = 0 then
        if 0 < sk + (pf page).skipped then
          CrawlEvent.visit page :: crawlGo pf (page + 1) 0 (sk + (pf page).skipped) r
        else if 3 ≤ ce + 1 then
          [CrawlEvent.visit page]
        else
          CrawlEvent.visit page :: crawlGo pf (page + 1) (ce + 1) (sk + (pf page).skipped) r
      else
        CrawlEvent.visit page :: CrawlEvent.flush ::
          crawlGo pf (page + 1) 0 (sk + (pf page).skipped) r := rfl

theorem crawlGo_new (pf : Nat → PageResult) (page ce sk r : Nat)
    (h : (pf page).newComps ≠ 0) :
    crawlGo pf page ce sk (r + 1) =
      CrawlEvent.visit page :: CrawlEvent.flush ::
        crawlGo pf (page + 1) 0 (sk + (pf page).skipped) r := by
  rw [crawlGo_succ, if_neg h]

theorem crawlGo_skip (pf : Nat → PageResult) (page ce sk r : Nat)
    (h : (pf page).newComps = 0) (hsk : 0 < sk + (pf page).skipped) :
    crawlGo pf page ce sk (r + 1) =
      CrawlEvent.visit page :: crawlGo pf (page + 1) 0 (sk + (pf page).skipped) r := by
  rw [crawlGo_succ, if_pos h, if_pos hsk]

theorem crawlGo_inc (pf : Nat → PageResult) (page ce sk r : Nat)
    (h : (pf page).newComps = 0) (hsk : ¬ 0 < sk + (pf page).skipped)
    (hce : ¬ 3 ≤ ce + 1) :
    crawlGo pf page ce sk (r + 1) =
      CrawlEvent.visit page :: crawlGo pf (page + 1) (ce + 1) (sk + (pf page).skipped) r := by
  rw [crawlGo_succ, if_pos h, if_neg hsk, if_neg hce]

theorem crawlGo_stop (pf : Nat → PageResult) (page ce sk r : Nat)
    (h : (pf page).newComps = 0) (hsk : ¬ 0 < sk + (pf page).skipped)
    (hce : 3 ≤ ce + 1) :
    crawlGo pf page ce sk (r + 1) = [CrawlEvent.visit page] := by
  rw [crawlGo_succ, if_pos h, if_neg hsk, if_pos hce]

/-- Page function exhibiting the cumulative-counter behaviour: page 1 skips
one already-processed entry, pages 1-4 yield new competitions, pages from 5
on are empty with nothing to skip. -/
def pageFnSkewed : Nat → PageResult := fun p =>
  if p ≤ 4 then { newComps := 1, skipped := if p = 1 then 1 else 0 }
  else { newComps := 0, skipped := 0 }

/-- A run in which no page ever skips an already-processed entry:
pages 1-4 yield new competitions, pages from 5 on are empty. -/
def pageFnGood : Nat → PageResult := fun p =>
  if p ≤ 4 then { newComps := 1, skipped := 0 } else { newComps := 0, skipped := 0 }

/-- A run in which every page is empty with nothing to skip. -/
def pageFnAllEmpty : Nat → PageResult := fun _ => { newComps := 0, skipped := 0 }

/-- C1 counterexample: pages 5, 6 and 7 each return zero competitions and
zero already-skipped entries, yet the crawl does request page 8, because the
skip counter consulted by the loop is the run-wide cumulative statistic and
page 1 skipped an entry, so every later empty page resets the
consecutive-empty counter instead of incrementing it. -/
theorem pagination_early_termination_counterexample :
    (pageFnSkewed 5).newComps = 0 ∧ (pageFnSkewed 5).skipped = 0 ∧
    (pageFnSkewed 6).newComps = 0 ∧ (pageFnSkewed 6).skipped = 0 ∧
    (pageFnSkewed 7).newComps = 0 ∧ (pageFnSkewed 7).skipped = 0 ∧
    8 ∈ visitedPages (runEvents pageFnSkewed 10) := by decide

/-- C1 (amended): the consecutive-empty counter increments only while the
run-wide cumulative count of already-processed skipped entries is zero, and
the loop stops at 3.  In particular, when pages 1-4 yield new competitions
and no page up to 7 skips an already-processed entry, and pages 5, 6, 7 are
empty, the crawl stops after page 7: exactly pages 1-7 are requested. -/
theorem pagination_early_termination_amended (pf : Nat → PageResult) (maxPages : Nat)
    (hmax : 8 ≤ maxPages)
    (hfirst : ∀ p, 1 ≤ p → p ≤ 4 → (pf p).newComps ≠ 0 ∧ (pf p).skipped = 0)
    (hempty : ∀ p, 5 ≤ p → p ≤ 7 → (pf p).newComps = 0 ∧ (pf p).skipped = 0) :
    visitedPages (runEvents pf maxPages) = [1, 2, 3, 4, 5, 6, 7] := by
  obtain ⟨k, rfl⟩ : ∃ k, maxPages = k + 8 := ⟨maxPages - 8, by omega⟩
  have h1 := hfirst 1 (by omega) (by omega)
  have h2 := hfirst 2 (by omega) (by omega)
  have h3 := hfirst 3 (by omega) (by omega)
  have h4 := hfirst 4 (by omega) (by omega)
  have h5 := hempty 5 (by omega) (by omega)
  have h6 := hempty 6 (by omega) (by omega)
  have h7 := hempty 7 (by omega) (by omega)
  unfold runEvents
  rw [show k + 8 = (k + 7) + 1 from rfl, crawlGo_new pf 1 0 0 (k + 7) h1.1, h1.2]
  rw [show (1 : Nat) + 1 = 2 from rfl, show (0 : Nat) + 0 = 0 from rfl]
  rw [show k + 7 = (k + 6) + 1 from rfl, crawlGo_new pf 2 0 0 (k + 6) h2.1, h2.2]
  rw [show (2 : Nat) + 1 = 3 from rfl, show (0 : Nat) + 0 = 0 from rfl]
  rw [show k + 6 = (k + 5) + 1 from rfl, crawlGo_new pf 3 0 0 (k + 5) h3.1, h3.2]
  rw [show (3 : Nat) + 1 = 4 from rfl, show (0 : Nat) + 0 = 0 from rfl]
  rw [show k + 5 = (k + 4) + 1 from rfl, crawlGo_new pf 4 0 0 (k + 4) h4.1, h4.2]
  rw [show (4 : Nat) + 1 = 5 from rfl, show (0 : Nat) + 0 = 0 from rfl]
  rw [show k + 4 = (k + 3) + 1 from rfl,
    crawlGo_inc pf 5 0 0 (k + 3) h5.1 (by rw [h5.2]; omega) (by omega), h5.2]
  rw [show (5 : Nat) + 1 = 6 from rfl, show (0 : Nat) + 1 = 1 from rfl,
    show (0 : Nat) + 0 = 0 from rfl]
  rw [show k + 3 = (k + 2) + 1 from rfl,
    crawlGo_inc pf 6 1 0 (k + 2) h6.1 (by rw [h6.2]; omega) (by omega), h6.2]
  rw [show (6 : Nat) + 1 = 7 from rfl, show (1 : Nat) + 1 = 2 from rfl,
    show (0 : Nat) + 0 = 0 from rfl]
  rw [show k + 2 = (k + 1) + 1 from rfl,
    crawlGo_stop pf 7 2 0 (k + 1) h7.1 (by rw [h7.2]; omega) (by omega)]
  rfl

/-- C1 amended witness: the amended theorem applied to a concrete run
with no skipped entries anywhere. -/
theorem pagination_early_termination_amended_witness :
    visitedPages (runEvents pageFnGood 10) = [1, 2, 3, 4, 5, 6, 7] :=
  pagination_early_termination_amended pageFnGood 10 (by omega)
    (fun p h1 h2 => by interval_cases p <;> exact ⟨by decide, by decide⟩)
    (fun p h1 h2 => by interval_cases p <;> exact ⟨by decide, by decide⟩)

/-- C2 counterexample: with every page empty, the crawl visits three pages
but flushes the registry only once (the final flush), not once per page
plus once at the end: `_save_registry` is only reached on pages that
yielded new competitions. -/
theorem registry_flush_frequency_counterexample :
    (visitedPages (runEvents pageFnAllEmpty 10)).length = 3 ∧
    flushes (runEvents pageFnAllEmpty 10) ≠
      (visitedPages (runEvents pageFnAllEmpty 10)).length + 1 := by decide

theorem flushes_crawlGo (pf : Nat → PageResult) :
    ∀ r page ce sk, flushes (crawlGo pf page ce sk r) =
      newPages pf (visitedPages (crawlGo pf page ce sk r)) := by
  intro r
  induction r with
  | zero => intro page ce sk; rfl
  | succ r ih =>
    intro page ce sk
    by_cases h : (pf page).newComps = 0
    · by_cases hsk : 0 < sk + (pf page).skipped
      · rw [crawlGo_skip pf page ce sk r h hsk]
        simp only [visitedPages, flushes, newPages, List.filterMap_cons, List.countP_cons] at *
        simp [h, ih]
      · by_cases hce : 3 ≤ ce + 1
        · rw [crawlGo_stop pf page ce sk r h hsk hce]
          simp [visitedPages, flushes, newPages, h]
        · rw [crawlGo_inc pf page ce sk r h hsk hce]
          simp only [visitedPages, flushes, newPages, List.filterMap_cons, List.countP_cons] at *
          simp [h, ih]
    · rw [crawlGo_new pf page ce sk r h]
      simp only [visitedPages, flushes, newPages, List.filterMap_cons, List.countP_cons] at *
      simp [h, ih]

/-- C2 (amended): the registry is flushed exactly once per page that
yielded at least one new competition, plus once at the very end of the
run; the final event of every run is a registry flush. -/
theorem registry_flush_frequency_amended (pf : Nat → PageResult) (maxPages : Nat) :
    flushes (runEvents pf maxPages) =
      newPages pf (visitedPages (runEvents pf maxPages)) + 1 ∧
    (runEvents pf maxPages).getLast? = some CrawlEvent.flush := by
  constructor
  · unfold runEvents
    have hv : visitedPages (crawlGo pf 1 0 0 maxPages ++ [CrawlEvent.flush]) =
        visitedPages (crawlGo pf 1 0 0 maxPages) := by
      simp [visitedPages]
    have hf : flushes (crawlGo pf 1 0 0 maxPages ++ [CrawlEvent.flush]) =
        flushes (crawlGo pf 1 0 0 maxPages) + 1 := by
      simp [flushes]
    rw [hv, hf, flushes_crawlGo]
  · unfold runEvents
    exact List.getLast?_concat _

/-- A JSON value, as produced by Python's `json.load`. -/
inductive Json where
  | null : Json
  | bool : Bool → Json
  | num : Int → Json
  | str : String → Json
  | arr : List Json → Json
  | obj : List (String × Json) → Json

/-- Possible states of the backing registry file as seen by
`_load_registry`: absent, present but unreadable (an `IOError` when
opening or reading it), present but not syntactically valid JSON
(a `JSONDecodeError`), or present and parsed to some JSON value. -/
inductive FileContent where
  | missing : FileContent
  | unreadable : FileContent
  | malformed : FileContent
  | parsed : Json → FileContent

/-- Outcome of `_load_registry`: the in-memory registry state
(`downloaded_files`, `processed_competitions` as element lists), or an
exception escaping to the caller. -/
inductive LoadResult where
  | state : List Json → List Json → LoadResult
  | raises : LoadResult

/-- Python `dict.get(key, default)` on the dict produced by `json.load`
(duplicate keys: the last occurrence wins). -/
def objGet (fields : List (String × Json)) (key : String) (dflt : Json) : Json :=
  match fields.reverse.find? (fun p => p.fst == key) with
  | some p => p.snd
  | none => dflt

/-- Whether Python's `set(v)` succeeds on the value: strings, lists and
dicts are iterable; `None`, booleans and numbers raise `TypeError`. -/
def pyIterable : Json → Bool
  | Json.str _ => true
  | Json.arr _ => true
  | Json.obj _ => true
  | _ => false

/-- The elements Python's `set(v)` iterates over: characters of a string
(as one-character strings), elements of a list, keys of a dict. -/
def pyElems : Json → List Json
  | Json.str s => s.data.map fun c => Json.str (String.mk [c])
  | Json.arr xs => xs
  | Json.obj fs => fs.map fun p => Json.str p.fst
  | _ => []

/-- `FMNScraper._load_registry` (lines 105-117).  A missing file leaves the
initial empty sets in place; `JSONDecodeError` and `IOError` are caught and
reset the sets to empty.  Parsed JSON is consumed via
`data.get('downloaded_urls', [])` / `data.get('competition_ids', [])`
followed by `set(...)`: a non-dict top level raises `AttributeError`, and a
non-iterable field value raises `TypeError`; neither is caught. -/
def loadRegistry (c : FileContent) : LoadResult :=
  match c with
  | FileContent.missing => LoadResult.state [] []
  | FileContent.unreadable => LoadResult.state [] []
  | FileContent.malformed => LoadResult.state [] []
  | FileContent.parsed (Json.obj fields) =>
    if pyIterable (objGet fields "downloaded_urls" (Json.arr [])) then
      if pyIterable (objGet fields "competition_ids" (Json.arr [])) then
        LoadResult.state (pyElems (objGet fields "downloaded_urls" (Json.arr [])))
          (pyElems (objGet fields "competition_ids" (Json.arr [])))
      else LoadResult.raises
    else LoadResult.raises
  | FileContent.parsed _ => LoadResult.raises

/-- C3 counterexample: a backing file holding the valid JSON text `[]`
(a top-level list, an arbitrarily-shaped content) makes `_load_registry`
raise `AttributeError` to the caller instead of returning an empty state:
only `JSONDecodeError` and `IOError` are caught. -/
theorem registry_load_fails_soft_counterexample :
    loadRegistry (FileContent.parsed (Json.arr [])) = LoadResult.raises := rfl

/-- C3 (amended): loading fails soft — empty state, no exception — when
the backing file is missing, unreadable (`IOError`), or not valid JSON
(`JSONDecodeError`); syntactically valid JSON of an unusable shape is not
covered and escapes as an uncaught exception. -/
theorem registry_load_fails_soft_amended :
    loadRegistry FileContent.missing = LoadResult.state [] [] ∧
    loadRegistry FileContent.unreadable = LoadResult.state [] [] ∧
    loadRegistry FileContent.malformed = LoadResult.state [] [] :=
  ⟨rfl, rfl, rfl⟩

/-- Outcome of `_make_request(url, stream=True)` inside `_download_file`:
either `None` (timeout, connection error, HTTP error — all caught in
`_make_request`), or a response with a declared Content-Type header,
together with whether the subsequent body write raises `IOError`. -/
inductive FetchOutcome where
  | failure : FetchOutcome
  | response : String → Bool → FetchOutcome

/-- Environment of one `_download_file` call: whether `save_path` already
exists on disk, and how the network fetch turns out. -/
structure DownloadEnv where
  fileExists : Bool
  fetch : FetchOutcome

/-- Result of `_download_file`: the updated `downloaded_files` set, the
boolean return value (`True` only on a fresh successful download), and
whether the destination file was opened for writing (on `IOError` a
partial file may remain; on content-type rejection nothing is written). -/
structure DownloadResult where
  downloaded : List String
  success : Bool
  wrote : Bool

/-- Whether `needle` occurs as a contiguous run inside the list. -/
def listHasRun (needle : List Char) : List Char → Bool
  | [] => needle.isEmpty
  | c :: rest => needle.isPrefixOf (c :: rest) || listHasRun needle rest

/-- Python's `'text/html' in content_type` substring test. -/
def isHtmlContentType (ct : String) : Bool :=
  listHasRun "text/html".data ct.data

/-- `FMNScraper._download_file` (lines 299-341): skip URLs already in
`downloaded_files`; if the target file exists, record the URL and skip;
on fetch failure return `False`; reject responses whose Content-Type
contains `text/html` before writing anything; on a write `IOError`
return `False` without recording; otherwise record the URL and succeed. -/
def downloadFile (downloaded : List String) (url : String) (env : DownloadEnv) :
    DownloadResult :=
  if url ∈ downloaded then ⟨downloaded, false, false⟩
  else if env.fileExists then ⟨url :: downloaded, false, false⟩
  else
    match env.fetch with
    | FetchOutcome.failure => ⟨downloaded, false, false⟩
    | FetchOutcome.response ct writeFails =>
      if isHtmlContentType ct then ⟨downloaded, false, false⟩
      else if writeFails then ⟨downloaded, false, true⟩
      else ⟨url :: downloaded, true, true⟩

/-- C4: after any `_download_file` call, a URL belongs to the
`downloaded_files` set only if it was already there, or it is the
requested URL and either the target file was confirmed present on disk or
the download completed successfully; failed or aborted downloads (network
failure, HTML content type, write error) never add the URL. -/
theorem downloaded_url_invariant (downloaded : List String) (url : String)
    (env : DownloadEnv) (u : String)
    (h : u ∈ (downloadFile downloaded url env).downloaded) :
    u ∈ downloaded ∨
      (u = url ∧ (env.fileExists = true ∨ (downloadFile downloaded url env).success = true)) := by
  obtain ⟨fe, fetch⟩ := env
  cases fetch <;> cases fe <;>
    simp only [downloadFile] at h ⊢ <;>
    split_ifs at h ⊢ <;>
    simp_all [List.mem_cons] <;>
    tauto

/-- C4 witness: the invariant applied to a call whose target file already
exists on disk, the one case that adds a URL without a transfer. -/
theorem downloaded_url_invariant_witness :
    "u" ∈ (downloadFile [] "u" ⟨true, FetchOutcome.failure⟩).downloaded ∧
    ("u" ∈ ([] : List String) ∨
      ("u" = "u" ∧ ((true : Bool) = true ∨
        (downloadFile [] "u" ⟨true, FetchOutcome.failure⟩).success = true))) :=
  ⟨by decide, downloaded_url_invariant [] "u" ⟨true, FetchOutcome.failure⟩ "u" (by decide)⟩

/-- C8: a download whose response declares an HTML content type is
rejected before anything is written: the destination file is not opened,
the URL set is unchanged, and the call reports failure. -/
theorem non_binary_rejection (downloaded : List String) (url ct : String)
    (writeFails : Bool) (hct : isHtmlContentType ct = true) :
    (downloadFile downloaded url ⟨false, FetchOutcome.response ct writeFails⟩).wrote = false ∧
    (downloadFile downloaded url ⟨false, FetchOutcome.response ct writeFails⟩).downloaded
      = downloaded ∧
    (downloadFile downloaded url ⟨false, FetchOutcome.response ct writeFails⟩).success = false := by
  unfold downloadFile
  by_cases hmem : url ∈ downloaded
  · rw [if_pos hmem]
    exact ⟨rfl, rfl, rfl⟩
  · rw [if_neg hmem]
    simp only [Bool.false_eq_true, if_false]
    rw [if_pos hct]
    exact ⟨rfl, rfl, rfl⟩

/-- C8 witness: rejection of a concrete `text/html; charset=utf-8`
response. -/
theorem non_binary_rejection_witness :
    (downloadFile ["a"] "u" ⟨false, FetchOutcome.response "text/html; charset=utf-8" false⟩).wrote
      = false ∧
    (downloadFile ["a"] "u"
      ⟨false, FetchOutcome.response "text/html; charset=utf-8" false⟩).downloaded = ["a"] ∧
    (downloadFile ["a"] "u"
      ⟨false, FetchOutcome.response "text/html; charset=utf-8" false⟩).success = false :=
  non_binary_rejection ["a"] "u" "text/html; charset=utf-8" false (by decide)

/-- The characters replaced by `_` in `_sanitize_filename`
(the regex class matching any of the nine reserved characters). -/
def badFilenameChar (c : Char) : Bool :=
  c == '<' || c == '>' || c == ':' || c == '\"' || c == '/' || c == '\\' ||
  c == '|' || c == '?' || c == '*'

/-- Characters matched by Python's Unicode regex class for whitespace
(the characters on which `str.isspace()` holds, plus the information
separators): ASCII whitespace and the Unicode space characters. -/
def pyWhitespace (c : Char) : Bool :=
  c == ' ' || c == '\t' || c == '\n' || c == '\r' || c == '\x0b' || c == '\x0c' ||
  c == '\x1c' || c == '\x1d' || c == '\x1e' || c == '\x1f' || c == '\x85' || c == '\xa0' ||
  c == ' ' || (Nat.ble 0x2000 c.toNat && Nat.ble c.toNat 0x200a) ||
  c == ' ' || c == ' ' || c == ' ' || c == ' ' || c == '　'

/-- `c == '_'`, the class of the third substitution in `_sanitize_filename`. -/
def isUnderscore (c : Char) : Bool := c == '_'

/-- The characters removed from both ends by `name.strip('._-')`. -/
def stripDotDash (c : Char) : Bool := c == '.' || c == '_' || c == '-'

/-- Replacement of every maximal run of `p`-characters by a single `repl`,
as performed by a regex substitution of a one-or-more class with a single
character.  `inRun` records whether the previous character was in a run. -/
def collapseRuns (p : Char → Bool) (repl : Char) : List Char → Bool → List Char
  | [], _ => []
  | c :: rest, inRun =>
    if p c then
      if inRun then collapseRuns p repl rest true
      else repl :: collapseRuns p repl rest true
    else c :: collapseRuns p repl rest false

/-- Python's `str.strip(chars)`: remove the characters of the class from
both ends of the string. -/
def stripEnds (p : Char → Bool) (l : List Char) : List Char :=
  ((l.dropWhile p).reverse.dropWhile p).reverse

/-- `FMNScraper._sanitize_filename` (lines 169-176): replace reserved
filename characters by `_`, collapse whitespace runs to `_`, collapse
underscore runs to a single `_`, strip `.`/`_`/`-` from both ends, and
truncate to 100 characters. -/
def sanitizeFilename (name : String) : String :=
  String.mk ((stripEnds stripDotDash
    (collapseRuns isUnderscore '_'
      (collapseRuns pyWhitespace '_'
        (name.data.map fun c => if badFilenameChar c then '_' else c) false) false)).take 100)

theorem collapseRuns_mem (p : Char → Bool) (repl : Char) :
    ∀ (l : List Char) (b : Bool) (c : Char), c ∈ collapseRuns p repl l b →
      c = repl ∨ (c ∈ l ∧ p c = false) := by
  intro l
  induction l with
  | nil => intro b c hc; simp [collapseRuns] at hc
  | cons c0 rest ih =>
    intro b c hc
    by_cases h0 : p c0 = true
    · cases b with
      | true =>
        rw [show collapseRuns p repl (c0 :: rest) true = collapseRuns p repl rest true from by
          simp [collapseRuns, h0]] at hc
        rcases ih true c hc with h | ⟨h1, h2⟩
        · exact Or.inl h
        · exact Or.inr ⟨List.mem_cons_of_mem _ h1, h2⟩
      | false =>
        rw [show collapseRuns p repl (c0 :: rest) false
            = repl :: collapseRuns p repl rest true from by simp [collapseRuns, h0]] at hc
        rcases List.mem_cons.mp hc with h | h
        · exact Or.inl h
        · rcases ih true c h with h | ⟨h1, h2⟩
          · exact Or.inl h
          · exact Or.inr ⟨List.mem_cons_of_mem _ h1, h2⟩
    · rw [show collapseRuns p repl (c0 :: rest) b
          = c0 :: collapseRuns p repl rest false from by simp [collapseRuns, h0]] at hc
      rcases List.mem_cons.mp hc with h | h
      · subst h
        exact Or.inr ⟨List.mem_cons_self _ _, by simpa using h0⟩
      · rcases ih false c h with h | ⟨h1, h2⟩
        · exact Or.inl h
        · exact Or.inr ⟨List.mem_cons_of_mem _ h1, h2⟩

theorem collapseRuns_head (p : Char → Bool) (repl : Char) :
    ∀ (l : List Char) (c : Char) (t : List Char),
      collapseRuns p repl l true = c :: t → p c = false := by
  intro l
  induction l with
  | nil => intro c t h; simp [collapseRuns] at h
  | cons c0 rest ih =>
    intro c t h
    by_cases h0 : p c0 = true
    · rw [show collapseRuns p repl (c0 :: rest) true = collapseRuns p repl rest true from by
        simp [collapseRuns, h0]] at h
      exact ih c t h
    · rw [show collapseRuns p repl (c0 :: rest) true
          = c0 :: collapseRuns p repl rest false from by simp [collapseRuns, h0]] at h
      injection h with h1 _
      subst h1
      simpa using h0

theorem collapse_underscore_chain :
    ∀ (l : List Char) (b : Bool),
      List.Chain' (fun a c => ¬(a = '_' ∧ c = '_'))
        (collapseRuns isUnderscore '_' l b) := by
  intro l
  induction l with
  | nil => intro b; simp [collapseRuns]
  | cons c0 rest ih =>
    intro b
    by_cases h0 : isUnderscore c0 = true
    · cases b with
      | true =>
        rw [show collapseRuns isUnderscore '_' (c0 :: rest) true
            = collapseRuns isUnderscore '_' rest true from by simp [collapseRuns, h0]]
        exact ih true
      | false =>
        rw [show collapseRuns isUnderscore '_' (c0 :: rest) false
            = '_' :: collapseRuns isUnderscore '_' rest true from by simp [collapseRuns, h0]]
        rw [List.chain'_cons']
        refine ⟨?_, ih true⟩
        intro y hy
        cases hrec : collapseRuns isUnderscore '_' rest true with
        | nil => rw [hrec] at hy; simp at hy
        | cons z t =>
          rw [hrec] at hy
          have hyz : z = y := by simpa using hy
          have hz := collapseRuns_head isUnderscore '_' rest z t hrec
          intro hcon
          rw [← hyz] at hcon
          rw [hcon.2] at hz
          simp [isUnderscore] at hz
    · rw [show collapseRuns isUnderscore '_' (c0 :: rest) b
          = c0 :: collapseRuns isUnderscore '_' rest false from by simp [collapseRuns, h0]]
      rw [List.chain'_cons']
      refine ⟨?_, ih false⟩
      intro y hy hcon
      rw [hcon.1] at h0
      simp [isUnderscore] at h0

theorem stripEnds_subset (p : Char → Bool) (l : List Char) : stripEnds p l ⊆ l := by
  intro c hc
  unfold stripEnds at hc
  rw [List.mem_reverse] at hc
  have hc2 := (List.dropWhile_sublist p).subset hc
  rw [List.mem_reverse] at hc2
  exact (List.dropWhile_sublist p).subset hc2

theorem chain_stripEnds {R : Char → Char → Prop} (hsym : ∀ a b, R a b → R b a)
    (p : Char → Bool) {l : List Char} (h : List.Chain' R l) :
    List.Chain' R (stripEnds p l) := by
  have h1 : List.Chain' R (l.dropWhile p) := h.suffix (List.dropWhile_suffix p)
  have h2 : List.Chain' (flip R) (l.dropWhile p) := h1.imp fun a b hab => hsym a b hab
  have h3 : List.Chain' R ((l.dropWhile p).reverse) := List.chain'_reverse.mpr h2
  have h4 : List.Chain' R ((l.dropWhile p).reverse.dropWhile p) :=
    h3.suffix (List.dropWhile_suffix p)
  have h5 : List.Chain' (flip R) ((l.dropWhile p).reverse.dropWhile p) :=
    h4.imp fun a b hab => hsym a b hab
  exact List.chain'_reverse.mpr h5

/-- C10: for every input, the sanitized filename has at most 100
characters, contains no reserved filename character and no whitespace, and
never contains two adjacent underscores (runs are collapsed to a single
underscore); concretely, a double space and a double `?` both collapse. -/
theorem sanitize_filename_bounds :
    (∀ name : String,
      (sanitizeFilename name).length ≤ 100 ∧
      (∀ c ∈ (sanitizeFilename name).data, badFilenameChar c = false ∧ pyWhitespace c = false) ∧
      List.Chain' (fun a c => ¬(a = '_' ∧ c = '_')) (sanitizeFilename name).data) ∧
    sanitizeFilename "ab  cd??ef" = "ab_cd_ef" := by
  refine ⟨fun name => ⟨?_, ?_, ?_⟩, by decide⟩
  · show (List.take 100 _).length ≤ 100
    rw [List.length_take]
    exact min_le_left _ _
  · intro c hc
    have h4 : c ∈ stripEnds stripDotDash _ := List.take_subset _ _ hc
    have h3 := stripEnds_subset stripDotDash _ h4
    rcases collapseRuns_mem isUnderscore '_' _ false c h3 with rfl | ⟨h2, _⟩
    · exact ⟨by decide, by decide⟩
    · rcases collapseRuns_mem pyWhitespace '_' _ false c h2 with rfl | ⟨h1, hws⟩
      · exact ⟨by decide, by decide⟩
      · rcases List.mem_map.mp h1 with ⟨a, _, ha⟩
        by_cases hb : badFilenameChar a = true
        · rw [if_pos hb] at ha
          exact ⟨by rw [← ha]; decide, by rw [← ha]; decide⟩
        · rw [if_neg hb] at ha
          subst ha
          exact ⟨by simpa using hb, hws⟩
  · show List.Chain' _ (List.take 100 _)
    refine List.Chain'.take ?_ 100
    refine chain_stripEnds (fun a b hab h => hab ⟨h.2, h.1⟩) stripDotDash ?_
    exact collapse_underscore_chain _ false

/-- Numeric value of a decimal digit character. -/
def digitVal (c : Char) : Nat := c.toNat - '0'.toNat

/-- Python's `int(...)` on a string of decimal digits. -/
def digitsToNat (l : List Char) : Nat :=
  l.foldl (fun acc c => acc * 10 + digitVal c) 0

/-- Effective year and save path computed by `_process_competition` when an
archive link was found (lines 359-371): with a precise date string the year
is `int(date_str.split('-')[0])` and the filename starts with the full
date; otherwise the season year is used for both.  The path is
`output_base_dir / str(year) / filename`. -/
def processTarget (outputBaseDir title : String) (seasonYear : Nat)
    (dateStr : Option String) : Nat × String :=
  match dateStr with
  | some d =>
    (digitsToNat (d.data.takeWhile fun c => c != '-'),
      outputBaseDir ++ "/" ++ toString (digitsToNat (d.data.takeWhile fun c => c != '-')) ++
        "/" ++ d ++ "__" ++ sanitizeFilename title ++ ".zip")
  | none =>
    (seasonYear,
      outputBaseDir ++ "/" ++ toString seasonYear ++ "/" ++ toString seasonYear ++
        "__" ++ sanitizeFilename title ++ ".zip")

/-- C5: when a precise date was extracted, the effective year is the year
component of that date, independent of the season-inferred year; without a
date the season year is used.  Concretely, date `2026-01-31` with season
year 2025 stores under `2026`, at
`out/2026/2026-01-31__Trofeo_Madrid.zip`. -/
theorem year_attribution_precedence :
    (∀ (root title : String) (sy sy2 : Nat) (d : String),
      (processTarget root title sy (some d)).fst = (processTarget root title sy2 (some d)).fst ∧
      (processTarget root title sy (some d)).snd = (processTarget root title sy2 (some d)).snd) ∧
    (∀ (root title : String) (sy : Nat), (processTarget root title sy none).fst = sy) ∧
    (processTarget "out" "Trofeo Madrid" 2025 (some "2026-01-31")).fst = 2026 ∧
    processTarget "out" "Trofeo Madrid" 2025 (some "2026-01-31")
      = (2026, "out/2026/2026-01-31__Trofeo_Madrid.zip") := by
  refine ⟨fun root title sy sy2 d => ⟨rfl, rfl⟩, fun root title sy => rfl, ?_, ?_⟩
  · decide
  · decide

/-- Leftmost-match attempt of the season regex (two digits, a hyphen, two
digits) at the head of the list, returning the first captured digit pair. -/
def seasonAt : List Char → Option (Char × Char)
  | a :: b :: c :: d :: e :: _ =>
    if a.isDigit ∧ b.isDigit ∧ c = '-' ∧ d.isDigit ∧ e.isDigit then some (a, b) else none
  | _ => none

/-- `re.search` of the season pattern: scan left to right for the first
position where the pattern matches. -/
def searchSeason : List Char → Option (Char × Char)
  | [] => none
  | c :: rest =>
    match seasonAt (c :: rest) with
    | some p => some p
    | none => searchSeason rest

/-- Match attempt of the explicit-year regex (literal `20` followed by two
digits) at the head of the list, returning the matched year's value. -/
def year20At : List Char → Option Nat
  | a :: b :: c :: d :: _ =>
    if a = '2' ∧ b = '0' ∧ c.isDigit ∧ d.isDigit then
      some (2000 + 10 * digitVal c + digitVal d)
    else none
  | _ => none

/-- `re.search` of the explicit-year pattern. -/
def searchYear20 : List Char → Option Nat
  | [] => none
  | c :: rest =>
    match year20At (c :: rest) with
    | some y => some y
    | none => searchYear20 rest

/-- Fallback of `_extract_year_from_text` when the season branch does not
return: the first explicit `20NN` occurrence, else the current year. -/
def yearFallback (currentYear : Nat) (text : List Char) : Nat :=
  match searchYear20 text with
  | some y => y
  | none => currentYear

/-- `FMNScraper._extract_year_from_text` (lines 153-167): the first
`NN-MM` season occurrence maps to `2000+NN` when that lies inside
`[start_year, end_year]`; otherwise the first explicit `20NN` occurrence;
otherwise the current calendar year (`datetime.now().year`, passed here as
`currentYear`). -/
def extractYearFromText (startYear endYear currentYear : Nat) (text : String) : Nat :=
  match searchSeason text.data with
  | some (a, b) =>
    if startYear ≤ 2000 + 10 * digitVal a + digitVal b ∧
        2000 + 10 * digitVal a + digitVal b ≤ endYear then
      2000 + 10 * digitVal a + digitVal b
    else yearFallback currentYear text.data
  | none => yearFallback currentYear text.data

/-- C6: season-year inference.  The first season pair `NN-MM` gives
`2000+NN` when in bounds; otherwise the first explicit `20NN` token is
used when one occurs; otherwise the current year.  Concretely,
`NATACIÓN Open 22-23 Jornada 1` infers 2022, a title with no season token
containing `2024` infers 2024, and a title with neither infers the
current year. -/
theorem season_year_inference :
    (∀ (sY eY cur : Nat) (t : String) (a b : Char),
      searchSeason t.data = some (a, b) →
      sY ≤ 2000 + 10 * digitVal a + digitVal b →
      2000 + 10 * digitVal a + digitVal b ≤ eY →
      extractYearFromText sY eY cur t = 2000 + 10 * digitVal a + digitVal b) ∧
    (∀ (sY eY cur : Nat) (t : String) (y : Nat),
      (∀ a b, searchSeason t.data = some (a, b) →
        ¬(sY ≤ 2000 + 10 * digitVal a + digitVal b ∧
          2000 + 10 * digitVal a + digitVal b ≤ eY)) →
      searchYear20 t.data = some y →
      extractYearFromText sY eY cur t = y) ∧
    (∀ (sY eY cur : Nat) (t : String),
      (∀ a b, searchSeason t.data = some (a, b) →
        ¬(sY ≤ 2000 + 10 * digitVal a + digitVal b ∧
          2000 + 10 * digitVal a + digitVal b ≤ eY)) →
      searchYear20 t.data = none →
      extractYearFromText sY eY cur t = cur) ∧
    extractYearFromText 2018 2025 2025 "NATACIÓN Open 22-23 Jornada 1" = 2022 ∧
    extractYearFromText 2018 2025 2025 "Campeonato de Madrid 2024" = 2024 ∧
    extractYearFromText 2018 2025 2025 "Trofeo Invierno" = 2025 := by
  refine ⟨?_, ?_, ?_, by decide, by decide, by decide⟩
  · intro sY eY cur t a b hs h1 h2
    unfold extractYearFromText
    rw [hs]
    show (if sY ≤ 2000 + 10 * digitVal a + digitVal b ∧
        2000 + 10 * digitVal a + digitVal b ≤ eY then
        2000 + 10 * digitVal a + digitVal b else yearFallback cur t.data) =
      2000 + 10 * digitVal a + digitVal b
    rw [if_pos ⟨h1, h2⟩]
  · intro sY eY cur t y hs hy
    unfold extractYearFromText
    cases hsea : searchSeason t.data with
    | none => unfold yearFallback; rw [hy]
    | some p =>
      obtain ⟨a, b⟩ := p
      show (if sY ≤ 2000 + 10 * digitVal a + digitVal b ∧
          2000 + 10 * digitVal a + digitVal b ≤ eY then
          2000 + 10 * digitVal a + digitVal b else yearFallback cur t.data) = y
      rw [if_neg (hs a b hsea)]
      unfold yearFallback
      rw [hy]
  · intro sY eY cur t hs hy
    unfold extractYearFromText
    cases hsea : searchSeason t.data with
    | none => unfold yearFallback; rw [hy]
    | some p =>
      obtain ⟨a, b⟩ := p
      show (if sY ≤ 2000 + 10 * digitVal a + digitVal b ∧
          2000 + 10 * digitVal a + digitVal b ≤ eY then
          2000 + 10 * digitVal a + digitVal b else yearFallback cur t.data) = cur
      rw [if_neg (hs a b hsea)]
      unfold yearFallback
      rw [hy]

/-- C6 witness: the season branch applied to a concrete bounded title. -/
theorem season_year_inference_witness :
    searchSeason "Open 22-23".data = some ('2', '2') ∧
    extractYearFromText 2018 2025 2025 "Open 22-23" = 2022 :=
  ⟨by decide, season_year_inference.1 2018 2025 2025 "Open 22-23" '2' '2'
    (by decide) (by decide) (by decide)⟩

/-- An anchor element of a calendar page, as delivered by the HTML layer:
its `href` attribute and its stripped visible text (`get_text(strip=True)`). -/
structure Anchor where
  href : String
  text : String

/-- A competition entry produced by `_get_competitions_from_page`. -/
structure CompetitionRef where
  id : String
  url : String
  title : String
  seasonYear : Nat
deriving DecidableEq

/-- `FMNScraper.BASE_URL`. -/
def baseUrl : String := "https://www.federacionmadridnatacion.es"

/-- The literal path segment required by the competition-link regex. -/
def litCompNat : List Char := "/competiciones-natacion/".data

/-- Match attempt of the competition-link regex at the head of the list:
the literal segment, one or more digits (the captured id), a hyphen, and
at least one further character (the lazy group followed by a slash or the
end; the dot class never matching a newline is immaterial for hrefs).
Subsumes the separate `'/competiciones-natacion/' in href` test, which the
regex implies. -/
def matchCompAt (cs : List Char) : Option String :=
  if litCompNat.isPrefixOf cs then
    match (cs.drop litCompNat.length).takeWhile Char.isDigit with
    | [] => none
    | d :: ds =>
      match (cs.drop litCompNat.length).drop (d :: ds).length with
      | '-' :: _ :: _ => some (String.mk (d :: ds))
      | _ => none
  else none

/-- `re.search` of the competition-link pattern over an href. -/
def searchCompId : List Char → Option String
  | [] => none
  | c :: rest =>
    match matchCompAt (c :: rest) with
    | some s => some s
    | none => searchCompId rest

/-- Python's `href.split('?')[0]`. -/
def beforeQuery (href : String) : String :=
  String.mk (href.data.takeWhile fun c => c != '?')

/-- `urllib.parse.urljoin(BASE_URL, ...)` for the href shapes occurring
here: absolute URLs are kept, absolute paths are appended to the base. -/
def pyUrljoin (base rel : String) : String :=
  if "http://".data.isPrefixOf rel.data || "https://".data.isPrefixOf rel.data then rel
  else if "/".data.isPrefixOf rel.data then base ++ rel
  else base ++ "/" ++ rel

/-- Python's `str.strip()` (no arguments): whitespace off both ends. -/
def pyStripWs (s : String) : String := String.mk (stripEnds pyWhitespace s.data)

/-- `re.sub(r'^NATACIÓN', '', title)`: drop the anchored marker when
present. -/
def removeNatMarker (t : String) : String :=
  if "NATACIÓN".data.isPrefixOf t.data then String.mk (t.data.drop "NATACIÓN".data.length)
  else t

/-- The per-anchor loop of `_get_competitions_from_page` (lines 217-260):
extract the numeric id from the href; skip (and count) ids already in the
registry; drop anchors with a visible text shorter than 5 characters;
clean the title and infer its season year; drop entries outside
`[start_year, end_year]`; deduplicate by id within the page; append the
rest in order.  `acc` is the list built so far and `skipped` the
`competitions_already_downloaded` counter. -/
def extractCompsAux (processed : List String) (sY eY cur : Nat)
    (acc : List CompetitionRef) (skipped : Nat) (anchors : List Anchor) :
    List CompetitionRef × Nat :=
  match anchors with
  | [] => (acc, skipped)
  | a :: rest =>
    match searchCompId a.href.data with
    | none => extractCompsAux processed sY eY cur acc skipped rest
    | some compId =>
      if compId ∈ processed then
        extractCompsAux processed sY eY cur acc (skipped + 1) rest
      else if a.text.length < 5 then
        extractCompsAux processed sY eY cur acc skipped rest
      else
        if sY ≤ extractYearFromText sY eY cur (pyStripWs (removeNatMarker a.text)) ∧
            extractYearFromText sY eY cur (pyStripWs (removeNatMarker a.text)) ≤ eY then
          if compId ∈ acc.map (fun c => c.id) then
            extractCompsAux processed sY eY cur acc skipped rest
          else
            extractCompsAux processed sY eY cur
              (acc ++ [{ id := compId,
                         url := pyUrljoin baseUrl (beforeQuery a.href),
                         title := pyStripWs (removeNatMarker a.text),
                         seasonYear :=
                           extractYearFromText sY eY cur (pyStripWs (removeNatMarker a.text)) }])
              skipped rest
        else
          extractCompsAux processed sY eY cur acc skipped rest

/-- `FMNScraper._get_competitions_from_page` on a fetched page: the
competitions returned to the crawl loop and the number of skipped
already-processed entries. -/
def getCompetitionsFromPage (processed : List String) (sY eY cur : Nat)
    (anchors : List Anchor) : List CompetitionRef × Nat :=
  extractCompsAux processed sY eY cur [] 0 anchors

theorem extractCompsAux_mem (processed : List String) (sY eY cur : Nat) :
    ∀ (anchors : List Anchor) (acc : List CompetitionRef) (skipped : Nat)
      (c : CompetitionRef),
      c ∈ (extractCompsAux processed sY eY cur acc skipped anchors).fst →
      c ∈ acc ∨ c.id ∉ processed := by
  intro anchors
  induction anchors with
  | nil =>
    intro acc skipped c hc
    exact Or.inl hc
  | cons a rest ih =>
    intro acc skipped c hc
    simp only [extractCompsAux] at hc
    split at hc
    · exact ih acc skipped c hc
    · split at hc
      · exact ih acc (skipped + 1) c hc
      · rename_i hnotproc
        split at hc
        · exact ih acc skipped c hc
        · split at hc
          · split at hc
            · exact ih acc skipped c hc
            · rcases ih _ _ c hc with hmem | hid
              · rcases List.mem_append.mp hmem with h | h
                · exact Or.inl h
                · have hce := List.mem_singleton.mp h
                  subst hce
                  exact Or.inr hnotproc
              · exact Or.inr hid
          · exact ih acc skipped c hc

/-- C7: no competition whose id is in the loaded registry's processed set
is ever returned by page extraction — such entries are counted and dropped
before being returned, so the crawl loop (which fetches detail pages only
for returned entries) never fetches, scans or downloads them. -/
theorem already_processed_short_circuit (processed : List String) (sY eY cur : Nat)
    (anchors : List Anchor) (c : CompetitionRef)
    (hc : c ∈ (getCompetitionsFromPage processed sY eY cur anchors).fst) :
    c.id ∉ processed := by
  rcases extractCompsAux_mem processed sY eY cur anchors [] 0 c hc with h | h
  · exact absurd h (List.not_mem_nil c)
  · exact h

/-- A concrete calendar anchor for a competition with id 456. -/
def anchorSample : Anchor :=
  { href := "/competiciones-natacion/456-trofeo-madrid", text := "Trofeo Madrid 22-23" }

/-- The entry that page extraction produces for `anchorSample`. -/
def compRefSample : CompetitionRef :=
  { id := "456",
    url := "https://www.federacionmadridnatacion.es/competiciones-natacion/456-trofeo-madrid",
    title := "Trofeo Madrid 22-23", seasonYear := 2022 }

/-- C7 witness: with id 123 in the registry, the extracted entry for the
unprocessed competition 456 is returned and its id is not in the
registry. -/
theorem already_processed_short_circuit_witness :
    compRefSample ∈ (getCompetitionsFromPage ["123"] 2018 2025 2025 [anchorSample]).fst ∧
    compRefSample.id ∉ ["123"] := by
  constructor
  · decide
  · exact already_processed_short_circuit ["123"] 2018 2025 2025 [anchorSample]
      compRefSample (by decide)

/-- Word characters of Python's Unicode regex word class as they occur in
this site's Spanish text: ASCII letters, digits, underscore, and the
accented letters of the Spanish alphabet. -/
def isWordCharEs (c : Char) : Bool :=
  c.isAlpha || c.isDigit || c == '_' || c == 'á' || c == 'é' || c == 'í' || c == 'ó' ||
  c == 'ú' || c == 'ñ' || c == 'ü' || c == 'Á' || c == 'É' || c == 'Í' || c == 'Ó' ||
  c == 'Ú' || c == 'Ñ' || c == 'Ü'

/-- One-or-more whitespace at the head of the list: requires at least one
whitespace character and consumes the maximal run (the token following it
in the date pattern is never whitespace, so only the maximal run can
match). -/
def parseWs : List Char → Option (List Char)
  | [] => none
  | c :: rest => if pyWhitespace c then some (rest.dropWhile pyWhitespace) else none

/-- The literal `de` of the date pattern, case-insensitively
(`re.IGNORECASE`). -/
def parseDe : List Char → Option (List Char)
  | c1 :: c2 :: rest =>
    if (c1 == 'd' || c1 == 'D') && (c2 == 'e' || c2 == 'E') then some rest else none
  | _ => none

/-- Exactly-four-digits capture at the head of the list (further
characters may follow). -/
def year4At : List Char → Option (List Char)
  | y1 :: y2 :: y3 :: y4 :: _ =>
    if y1.isDigit ∧ y2.isDigit ∧ y3.isDigit ∧ y4.isDigit then some [y1, y2, y3, y4] else none
  | _ => none

/-- The date pattern after the day digits: whitespace, `de`, whitespace,
the month word (captured), whitespace, `de`, whitespace, four digits
(captured).  The month group is the maximal word-character run: a shorter
run would leave a word character where whitespace is required, so
backtracking cannot produce a different match at this position. -/
def parseTail (cs day : List Char) : Option (List Char × List Char × List Char) :=
  (parseWs cs).bind fun r1 =>
  (parseDe r1).bind fun r2 =>
  (parseWs r2).bind fun r3 =>
  if r3.takeWhile isWordCharEs = [] then none
  else
    (parseWs (r3.drop (r3.takeWhile isWordCharEs).length)).bind fun r4 =>
    (parseDe r4).bind fun r5 =>
    (parseWs r5).bind fun r6 =>
    (year4At r6).bind fun ys =>
    some (day, r3.takeWhile isWordCharEs, ys)

/-- Match attempt of the whole date pattern at the head of the list.  The
day group takes one or two digits, preferring two and backtracking to one,
exactly as the greedy bounded quantifier does. -/
def matchDateAt : List Char → Option (List Char × List Char × List Char)
  | c1 :: c2 :: rest =>
    if c1.isDigit then
      if c2.isDigit then
        match parseTail rest [c1, c2] with
        | some r => some r
        | none => parseTail (c2 :: rest) [c1]
      else parseTail (c2 :: rest) [c1]
    else none
  | _ => none

/-- `re.search` of the date pattern: first position, scanning left to
right, at which the pattern matches. -/
def searchDate : List Char → Option (List Char × List Char × List Char)
  | [] => none
  | c :: rest =>
    match matchDateAt (c :: rest) with
    | some r => some r
    | none => searchDate rest

/-- Python's `str.lower()` on the captured month word. -/
def pyLower (s : String) : String := String.mk (s.data.map Char.toLower)

/-- The `months_es` dictionary of `_extract_date_from_page`. -/
def monthsEs (m : String) : Option String :=
  if m = "enero" then some "01"
  else if m = "febrero" then some "02"
  else if m = "marzo" then some "03"
  else if m = "abril" then some "04"
  else if m = "mayo" then some "05"
  else if m = "junio" then some "06"
  else if m = "julio" then some "07"
  else if m = "agosto" then some "08"
  else if m = "septiembre" then some "09"
  else if m = "octubre" then some "10"
  else if m = "noviembre" then some "11"
  else if m = "diciembre" then some "12"
  else none

/-- Python's `day.zfill(2)` on the one- or two-digit day capture. -/
def zfill2 (d : List Char) : List Char :=
  if d.length = 1 then '0' :: d else d

/-- The return of `_extract_date_from_page` given the regex search result:
`None` without a match or with an unrecognized month name, else the
f-string `year-month-day` (modelled as character-list concatenation). -/
def buildDate : Option (List Char × List Char × List Char) → Option String
  | none => none
  | some (day, w, y) =>
    match monthsEs (pyLower (String.mk w)) with
    | some mm => some (String.mk (y ++ '-' :: mm.data ++ '-' :: zfill2 day))
    | none => none

/-- `FMNScraper._extract_date_from_page` (lines 178-198) on the page text. -/
def extractDateFromPage (text : String) : Option String :=
  buildDate (searchDate text.data)

/-- The date derived from the first pattern occurrence whose month name is
recognized, following the specification's wording; used to compare the
implementation against it. -/
def searchDateRecognized : List Char → Option String
  | [] => none
  | c :: rest =>
    match matchDateAt (c :: rest) with
    | some (day, w, y) =>
      match monthsEs (pyLower (String.mk w)) with
      | some mm => some (String.mk (y ++ '-' :: mm.data ++ '-' :: zfill2 day))
      | none => searchDateRecognized rest
    | none => searchDateRecognized rest

/-- ISO `yyyy-mm-dd` shape with a month between 01 and 12: four digits,
hyphen, two digits in range, hyphen, two digits. -/
def IsIsoDate (s : String) : Prop :=
  match s.data with
  | [a, b, c, d, e, f, g, h, i, j] =>
    a.isDigit = true ∧ b.isDigit = true ∧ c.isDigit = true ∧ d.isDigit = true ∧ e = '-' ∧
    f.isDigit = true ∧ g.isDigit = true ∧ h = '-' ∧ i.isDigit = true ∧ j.isDigit = true ∧
    1 ≤ 10 * digitVal f + digitVal g ∧ 10 * digitVal f + digitVal g ≤ 12
  | _ => False

/-- Two digit characters forming a month value between 1 and 12. -/
def isIsoMonth (mm : String) : Bool :=
  match mm.data with
  | [m1, m2] =>
    m1.isDigit && m2.isDigit && Nat.ble 1 (10 * digitVal m1 + digitVal m2) &&
      Nat.ble (10 * digitVal m1 + digitVal m2) 12
  | _ => false

set_option maxHeartbeats 2000000 in
theorem monthsEs_facts (x mm : String) (h : monthsEs x = some mm) : isIsoMonth mm = true := by
  unfold monthsEs at h
  repeat' split at h
  all_goals
    first
    | exact Option.noConfusion h
    | (injection h with h2; subst h2; decide)

theorem isIsoMonth_shape (mm : String) (h : isIsoMonth mm = true) :
    ∃ m1 m2, mm.data = [m1, m2] ∧ m1.isDigit = true ∧ m2.isDigit = true ∧
      1 ≤ 10 * digitVal m1 + digitVal m2 ∧ 10 * digitVal m1 + digitVal m2 ≤ 12 := by
  obtain ⟨l⟩ := mm
  rcases l with _ | ⟨m1, _ | ⟨m2, _ | ⟨m3, t⟩⟩⟩
  · exact absurd h (by simp [isIsoMonth])
  · exact absurd h (by simp [isIsoMonth])
  · unfold isIsoMonth at h
    simp only [Bool.and_eq_true, Nat.ble_eq] at h
    exact ⟨m1, m2, rfl, h.1.1.1, h.1.1.2, h.1.2, h.2⟩
  · exact absurd h (by simp [isIsoMonth])

theorem year4At_facts (l ys : List Char) (h : year4At l = some ys) :
    ∃ y1 y2 y3 y4, ys = [y1, y2, y3, y4] ∧
      y1.isDigit = true ∧ y2.isDigit = true ∧ y3.isDigit = true ∧ y4.isDigit = true := by
  rcases l with _ | ⟨y1, _ | ⟨y2, _ | ⟨y3, _ | ⟨y4, t⟩⟩⟩⟩
  · exact Option.noConfusion h
  · exact Option.noConfusion h
  · exact Option.noConfusion h
  · exact Option.noConfusion h
  · simp only [year4At] at h
    split at h
    · rename_i hdig
      injection h with h2
      exact ⟨y1, y2, y3, y4, h2.symm, hdig.1, hdig.2.1, hdig.2.2.1, hdig.2.2.2⟩
    · exact Option.noConfusion h

theorem parseTail_facts (cs day d w y : List Char)
    (h : parseTail cs day = some (d, w, y)) :
    d = day ∧ ∃ y1 y2 y3 y4, y = [y1, y2, y3, y4] ∧
      y1.isDigit = true ∧ y2.isDigit = true ∧ y3.isDigit = true ∧ y4.isDigit = true := by
  unfold parseTail at h
  obtain ⟨r1, -, h⟩ := Option.bind_eq_some.mp h
  obtain ⟨r2, -, h⟩ := Option.bind_eq_some.mp h
  obtain ⟨r3, -, h⟩ := Option.bind_eq_some.mp h
  by_cases hw : r3.takeWhile isWordCharEs = []
  · rw [if_pos hw] at h
    exact Option.noConfusion h
  · rw [if_neg hw] at h
    obtain ⟨r4, -, h⟩ := Option.bind_eq_some.mp h
    obtain ⟨r5, -, h⟩ := Option.bind_eq_some.mp h
    obtain ⟨r6, -, h⟩ := Option.bind_eq_some.mp h
    obtain ⟨ys, hys, h⟩ := Option.bind_eq_some.mp h
    injection h with h2
    injection h2 with hd h2
    injection h2 with hw2 hy
    obtain ⟨y1, y2, y3, y4, hys4, hy1, hy2, hy3, hy4⟩ := year4At_facts r6 ys hys
    exact ⟨hd.symm, y1, y2, y3, y4, hy.symm.trans hys4, hy1, hy2, hy3, hy4⟩

theorem matchDateAt_facts (cs d w y : List Char) (h : matchDateAt cs = some (d, w, y)) :
    ((∃ c1 c2, d = [c1, c2] ∧ c1.isDigit = true ∧ c2.isDigit = true) ∨
      (∃ c1, d = [c1] ∧ c1.isDigit = true)) ∧
    ∃ y1 y2 y3 y4, y = [y1, y2, y3, y4] ∧
      y1.isDigit = true ∧ y2.isDigit = true ∧ y3.isDigit = true ∧ y4.isDigit = true := by
  rcases cs with _ | ⟨c1, _ | ⟨c2, rest⟩⟩
  · exact absurd h (by simp [matchDateAt])
  · exact absurd h (by simp [matchDateAt])
  · simp only [matchDateAt] at h
    by_cases h1 : c1.isDigit = true
    · rw [if_pos h1] at h
      by_cases h2 : c2.isDigit = true
      · rw [if_pos h2] at h
        cases hpt : parseTail rest [c1, c2] with
        | some r =>
          simp only [hpt] at h
          injection h with h3
          subst h3
          obtain ⟨hd, hy⟩ := parseTail_facts rest [c1, c2] d w y hpt
          exact ⟨Or.inl ⟨c1, c2, hd, h1, h2⟩, hy⟩
        | none =>
          simp only [hpt] at h
          obtain ⟨hd, hy⟩ := parseTail_facts (c2 :: rest) [c1] d w y h
          exact ⟨Or.inr ⟨c1, hd, h1⟩, hy⟩
      · rw [if_neg h2] at h
        obtain ⟨hd, hy⟩ := parseTail_facts (c2 :: rest) [c1] d w y h
        exact ⟨Or.inr ⟨c1, hd, h1⟩, hy⟩
    · rw [if_neg h1] at h
      exact absurd h (by simp)

theorem searchDate_facts :
    ∀ (cs d w y : List Char), searchDate cs = some (d, w, y) →
      ((∃ c1 c2, d = [c1, c2] ∧ c1.isDigit = true ∧ c2.isDigit = true) ∨
        (∃ c1, d = [c1] ∧ c1.isDigit = true)) ∧
      ∃ y1 y2 y3 y4, y = [y1, y2, y3, y4] ∧
        y1.isDigit = true ∧ y2.isDigit = true ∧ y3.isDigit = true ∧ y4.isDigit = true := by
  intro cs
  induction cs with
  | nil => intro d w y h; exact absurd h (by simp [searchDate])
  | cons c rest ih =>
    intro d w y h
    unfold searchDate at h
    cases hm : matchDateAt (c :: rest) with
    | some r =>
      simp only [hm] at h
      injection h with h2
      subst h2
      exact matchDateAt_facts (c :: rest) d w y hm
    | none =>
      simp only [hm] at h
      exact ih d w y h

theorem buildDate_recognized :
    ∀ (cs : List Char) (s : String), buildDate (searchDate cs) = some s →
      searchDateRecognized cs = some s := by
  intro cs
  induction cs with
  | nil => intro s h; exact absurd h (by simp [searchDate, buildDate])
  | cons c rest ih =>
    intro s h
    unfold searchDate at h
    unfold searchDateRecognized
    cases hm : matchDateAt (c :: rest) with
    | none =>
      simp only [hm] at h ⊢
      exact ih s h
    | some r =>
      obtain ⟨day, w, y⟩ := r
      simp only [hm] at h ⊢
      unfold buildDate at h
      cases hmm : monthsEs (pyLower (String.mk w)) with
      | none =>
        simp only [hmm] at h
        exact Option.noConfusion h
      | some mm =>
        simp only [hmm] at h ⊢
        exact h

/-- C9: whenever `_extract_date_from_page` returns a date string, it has
ISO `yyyy-mm-dd` shape — four digits, a two-digit month between 01 and 12
obtained from the Spanish month map, and a two-digit zero-padded day — and
it is the date derived from the first long-form date occurrence whose
month name is recognized (when the function returns no date, the claim
allows it). -/
theorem extracted_date_format (text s : String)
    (h : extractDateFromPage text = some s) :
    IsIsoDate s ∧ searchDateRecognized text.data = some s := by
  refine ⟨?_, buildDate_recognized text.data s h⟩
  unfold extractDateFromPage at h
  cases hsd : searchDate text.data with
  | none => rw [hsd] at h; exact absurd h (by simp [buildDate])
  | some r =>
    obtain ⟨day, w, y⟩ := r
    rw [hsd] at h
    unfold buildDate at h
    cases hmm : monthsEs (pyLower (String.mk w)) with
    | none =>
      simp only [hmm] at h
      exact Option.noConfusion h
    | some mm =>
      simp only [hmm] at h
      injection h with h2
      obtain ⟨hday, ⟨y1, y2, y3, y4, hy, hy1, hy2, hy3, hy4⟩⟩ :=
        searchDate_facts text.data day w y hsd
      obtain ⟨m1, m2, hmd, hm1, hm2, hlo, hhi⟩ :=
        isIsoMonth_shape mm (monthsEs_facts _ _ hmm)
      subst hy
      rcases hday with ⟨c1, c2, hd, hc1, hc2⟩ | ⟨c1, hd, hc1⟩
      · subst hd
        have hdata : s.data = [y1, y2, y3, y4, '-', m1, m2, '-', c1, c2] := by
          rw [← h2]
          show [y1, y2, y3, y4] ++ '-' :: mm.data ++ '-' :: zfill2 [c1, c2]
            = [y1, y2, y3, y4, '-', m1, m2, '-', c1, c2]
          rw [hmd]
          rfl
        unfold IsIsoDate
        rw [hdata]
        exact ⟨hy1, hy2, hy3, hy4, rfl, hm1, hm2, rfl, hc1, hc2, hlo, hhi⟩
      · subst hd
        have hdata : s.data = [y1, y2, y3, y4, '-', m1, m2, '-', '0', c1] := by
          rw [← h2]
          show [y1, y2, y3, y4] ++ '-' :: mm.data ++ '-' :: zfill2 [c1]
            = [y1, y2, y3, y4, '-', m1, m2, '-', '0', c1]
          rw [hmd]
          rfl
        unfold IsIsoDate
        rw [hdata]
        exact ⟨hy1, hy2, hy3, hy4, rfl, hm1, hm2, rfl, by decide, hc1, hlo, hhi⟩

/-- A concrete competition detail-page text. -/
def sampleDetailText : String := "Sábado, 31 de Enero de 2026 - Piscina M86"

/-- C9 witness: the format theorem applied to a concrete page text whose
first date phrase is recognized. -/
theorem extracted_date_format_witness :
    extractDateFromPage sampleDetailText = some "2026-01-31" ∧
    IsIsoDate "2026-01-31" ∧
    searchDateRecognized sampleDetailText.data = some "2026-01-31" :=
  ⟨by decide, extracted_date_format sampleDetailText "2026-01-31" (by decide)⟩
